import Mathlib

/-!
# Verification of the maleo UI engine

A shallow embedding of the layout / interaction / drawing core of the maleo
declarative UI library, together with proofs about it.

The repository contains two coexisting iterations of the engine:

* the runner iteration (`src/src/app.rs`): a hand-rolled Row/Column
  distributor (`Runner::measure`, `Runner::layout`) producing a `LayoutNode`
  tree, plus the hit-test/dispatch traversal `Runner::fire_callbacks`;
* the taffy iteration (`src/src/element.rs`, `src/src/draw.rs`): elements
  carry resolved geometry written by `do_layout`, and `draw_clipped`
  walks the tree with a clip rectangle.

`src/src/fonts.rs` (font registry and measurement cache) is shared.

`f32` values are modelled as exact rationals (`ℚ`); the floating-point
identities claimed by the spec hold "up to floating epsilon", which is the
exact rational identity proved here.  Rust `HashMap`/`HashSet` are modelled
as association lists / `Finset ℕ`, which have the same lookup/membership
semantics for the operations used.  Callback closures are modelled by
presence flags, and an invocation is recorded as an emitted event.
-/

namespace Maleo

/-! ## Fonts (src/src/fonts.rs) -/

namespace Fonts

/-- A registered font (`FontEntry` in src/src/fonts.rs): family name and size. -/
structure FontEntry where
  family : String
  size : ℚ
deriving DecidableEq

/-- The `Fonts` collection state (src/src/fonts.rs).  The glyphon
`FontSystem` is the external shaping service; it is modelled by the `runs`
parameter of `measureSized`.  The two hash maps are modelled as association
lists (keys are inserted only when absent, so lookup semantics agree). -/
structure State where
  entries : List FontEntry
  measureCache : List ((ℕ × String × ℕ) × (ℚ × ℚ))
  nameToId : List (String × ℕ)
  default : Option ℕ
deriving DecidableEq

/-- `Fonts::get_by_name`. -/
def getByName (st : State) (name : String) : Option ℕ :=
  st.nameToId.lookup name

/-- `Fonts::resolve`: resolves a font name to an id, falling back to the
configured default font. -/
def resolve (st : State) (name : Option String) : Option ℕ :=
  match name with
  | some n => (getByName st n).or st.default
  | none => st.default

/-- `Fonts::add`: registers `family`/`size` under `name` unless `name` is
already registered, in which case the existing id is returned and nothing
changes.  The returned id is what the `FontBuilder` wraps. -/
def add (st : State) (name family : String) (size : ℚ) : State × ℕ :=
  match getByName st name with
  | some existing => (st, existing)
  | none =>
      let id := st.entries.length
      ({ st with
          entries := st.entries ++ [⟨family, size⟩],
          nameToId := (name, id) :: st.nameToId }, id)

/-- The measurement-cache key quantization `(size * 10.0) as u32`
(truncation toward zero, saturating at 0 for negative values). -/
def quantKey (size : ℚ) : ℕ :=
  (⌊size * 10⌋).toNat

/-- The shaping step of `Fonts::measure_sized` on a cache miss.  glyphon's
buffer layout is the external text-shaping service, modelled by `runs`
(family, text, font size ↦ laid-out line widths): the width is the maximum
line width and the height accumulates `line_height = size * 1.4` per run,
exactly as in the source loop over `buffer.layout_runs()`. -/
def shapeMeasure (runs : String → String → ℚ → List ℚ)
    (family text : String) (size : ℚ) : ℚ × ℚ :=
  let lineHeight := size * (14 / 10)
  let ws := runs family text size
  (ws.foldl max 0, (ws.length : ℚ) * lineHeight)

/-- `Fonts::measure_sized`: the cache is keyed by
`(font id, text, quantized size)`; a miss shapes with the exact `size` and
stores the result under the quantized key.  (An out-of-range font id panics
in the source; here it shapes with an empty family name, which only feeds
the external `runs` service.) -/
def measureSized (runs : String → String → ℚ → List ℚ) (st : State)
    (text : String) (id : ℕ) (size : ℚ) : (ℚ × ℚ) × State :=
  let key : ℕ × String × ℕ := (id, text, quantKey size)
  match st.measureCache.lookup key with
  | some cached => (cached, st)
  | none =>
      let family := match st.entries.get? id with
        | some e => e.family
        | none => ""
      let result := shapeMeasure runs family text size
      (result, { st with measureCache := (key, result) :: st.measureCache })

/-- `Fonts::measure`: measures with the font's own registered size. -/
def measureDefaultSize (runs : String → String → ℚ → List ℚ) (st : State)
    (text : String) (id : ℕ) : (ℚ × ℚ) × State :=
  let size := match st.entries.get? id with
    | some e => e.size
    | none => 0
  measureSized runs st text id size

/-- A one-font registry used as concrete input in the measurement claims. -/
def fontState0 : State :=
  ⟨[⟨"Arial", 14⟩], [], [("body", 0)], some 0⟩

/-- A registry with no default font and no entries. -/
def fontStateEmpty : State :=
  ⟨[], [], [], none⟩

/-- A concrete deterministic stand-in for the external shaper: one layout
run of width `0.6 * size * length` for nonempty text. -/
def runs0 (_family text : String) (size : ℚ) : List ℚ :=
  if text = "" then [] else [size * (3 / 5) * (text.length : ℚ)]

end Fonts

/-! ## Draw traversal (src/src/draw.rs, src/src/element.rs, src/src/events.rs) -/

namespace Draw

/-- RGBA color (src/src/color.rs); channels in `[0,1]`. -/
structure Color where
  r : ℚ
  g : ℚ
  b : ℚ
  a : ℚ
deriving DecidableEq

/-- `Overflow` (src/src/element.rs). -/
inductive Overflow where
  | Visible
  | Hidden
  | Scroll
deriving DecidableEq

/-- The fields of `Style` (src/src/element.rs) consumed by the draw
traversal: the layout-resolved position `x, y` plus visual styling.
(Sizing/flex fields are consumed by the taffy layout, not by `draw`.) -/
structure Style where
  x : ℚ
  y : ℚ
  background : Option Color
  borderRadius : ℚ
  borderColor : Option Color
  borderThickness : ℚ
  opacity : ℚ
  overflow : Overflow
  shadowColor : Color
  shadowBlur : ℚ
deriving DecidableEq

/-- `Element` (src/src/element.rs), after layout has written the resolved
geometry.  The `on_click` closure is modelled by a presence flag; text
font-size/weight/italic/align only feed the renderer payload and are
elided. -/
inductive Element where
  | Empty
  | Rect (color : Color) (style : Style) (resolvedW resolvedH : ℚ)
  | Text (content : String) (font : Option String) (style : Style)
  | Button (label : String) (hasOnClick : Bool) (style : Style)
      (resolvedX resolvedY resolvedW resolvedH : ℚ)
  | Row (style : Style) (children : List Element) (resolvedW resolvedH : ℚ)
  | Column (style : Style) (children : List Element) (resolvedW resolvedH : ℚ)

/-- The pointer fields of `Mouse` (src/src/events.rs) consumed by `draw`. -/
structure Mouse where
  x : ℚ
  y : ℚ
  leftJustPressed : Bool
deriving DecidableEq

/-- `Mouse::over` (src/src/events.rs): inclusive bounds on all four sides. -/
def Mouse.over (m : Mouse) (x y w h : ℚ) : Bool :=
  decide (m.x ≥ x) && decide (m.x ≤ x + w) && decide (m.y ≥ y) && decide (m.y ≤ y + h)

/-- A clip rectangle `[x0, y0, x1, y1]` (the `[f32; 4]` of draw.rs). -/
structure Clip where
  x0 : ℚ
  y0 : ℚ
  x1 : ℚ
  y1 : ℚ
deriving DecidableEq

/-- Componentwise clip intersection: max of the minima, min of the maxima. -/
def Clip.inter (a b : Clip) : Clip :=
  ⟨max a.x0 b.x0, max a.y0 b.y0, min a.x1 b.x1, min a.y1 b.y1⟩

/-- `is_outside` (src/src/draw.rs): the rectangle is fully outside the
active clip; always false with no clip. -/
def isOutside (x y w h : ℚ) (clip : Option Clip) : Bool :=
  match clip with
  | none => false
  | some c =>
      decide (x + w < c.x0) || decide (y + h < c.y0) ||
      decide (x > c.x1) || decide (y > c.y1)

/-- `make_child_clip` (src/src/draw.rs): Hidden/Scroll containers introduce
`[x, y, x+w, y+h]`, intersected with the parent clip when one exists;
Visible containers pass the parent clip through. -/
def makeChildClip (x y w h : ℚ) (overflow : Overflow)
    (parentClip : Option Clip) : Option Clip :=
  if overflow = Overflow.Hidden ∨ overflow = Overflow.Scroll then
    let newClip : Clip := ⟨x, y, x + w, y + h⟩
    match parentClip with
    | some p => some ⟨max newClip.x0 p.x0, max newClip.y0 p.y0,
        min newClip.x1 p.x1, min newClip.y1 p.y1⟩
    | none => some newClip
  else parentClip

/-- The renderer handoff, recorded as emitted commands.  Colors, borders and
shadow geometry are renderer payload and are elided; a Button's centered
label position depends on a text measurement and is likewise elided.
`click` records an `on_click` closure invocation; `panic` records an
`unwrap()` of a failed font resolution. -/
inductive Cmd where
  | shadow (x y w h : ℚ)
  | roundedRect (x y w h : ℚ)
  | rectClipped (x y w h : ℚ) (clip : Clip)
  | rect (x y w h : ℚ)
  | text (content : String) (x y : ℚ)
  | buttonLabel (label : String)
  | click (label : String)
  | panic
deriving DecidableEq

/-- `draw_shape` (src/src/draw.rs): rounded rectangles fall back to a
hardware-clipped plain rectangle when a clip is active and the shape is not
fully inside it. -/
def drawShape (x y w h : ℚ) (borderRadius : ℚ) (clip : Option Clip) : List Cmd :=
  if borderRadius > 0 then
    match clip with
    | some c =>
        if x < c.x0 ∨ y < c.y0 ∨ x + w > c.x1 ∨ y + h > c.y1 then
          [Cmd.rectClipped x y w h c]
        else [Cmd.roundedRect x y w h]
    | none => [Cmd.roundedRect x y w h]
  else
    match clip with
    | some c => [Cmd.rectClipped x y w h c]
    | none => [Cmd.rect x y w h]

/-- `draw_shadow` (src/src/draw.rs): emits only when the shadow is visible. -/
def drawShadow (x y w h : ℚ) (style : Style) : List Cmd :=
  if style.shadowColor.a > 0 ∧ style.shadowBlur > 0 then [Cmd.shadow x y w h] else []

mutual

/-- `draw_clipped` (src/src/draw.rs): the draw traversal under an optional
active clip.  Rect/Text/Button nodes are culled by `is_outside` (Text with a
1×1 probe at its origin); Row/Column emit shadow and background and recurse
with `make_child_clip`.  A clicked Button invokes its `on_click` closure —
but only after `fonts.default_id().unwrap()`: with no default font the
traversal aborts at the panic, before the label is drawn and before
`on_click` can run, so the emitted list ends at `Cmd.panic` there. -/
def drawClipped (fonts : Fonts.State) (events : Mouse) :
    Element → Option Clip → List Cmd
  | Element.Empty, _ => []
  | Element.Rect _color style rw rh, clip =>
      if isOutside style.x style.y rw rh clip then []
      else
        drawShadow style.x style.y rw rh style ++
        drawShape style.x style.y rw rh style.borderRadius clip
  | Element.Text content font style, clip =>
      if isOutside style.x style.y 1 1 clip then []
      else
        match Fonts.resolve fonts font with
        | none => [Cmd.panic]
        | some _ => [Cmd.text content style.x style.y]
  | Element.Button label hasOnClick style rx ry rw rh, clip =>
      if isOutside rx ry rw rh clip then []
      else
        let hovered := events.over rx ry rw rh
        let clicked := hovered && events.leftJustPressed
        match fonts.default with
        | none =>
            drawShadow rx ry rw rh style ++
            drawShape rx ry rw rh style.borderRadius clip ++ [Cmd.panic]
        | some _ =>
            drawShadow rx ry rw rh style ++
            drawShape rx ry rw rh style.borderRadius clip ++
            [Cmd.buttonLabel label] ++
            (if clicked && hasOnClick then [Cmd.click label] else [])
  | Element.Row style children rw rh, clip =>
      drawShadow style.x style.y rw rh style ++
      (match style.background with
       | some _ => drawShape style.x style.y rw rh style.borderRadius clip
       | none => []) ++
      drawList fonts events children
        (makeChildClip style.x style.y rw rh style.overflow clip)
  | Element.Column style children rw rh, clip =>
      drawShadow style.x style.y rw rh style ++
      (match style.background with
       | some _ => drawShape style.x style.y rw rh style.borderRadius clip
       | none => []) ++
      drawList fonts events children
        (makeChildClip style.x style.y rw rh style.overflow clip)

/-- The child loop of the Row/Column arms of `draw_clipped`. -/
def drawList (fonts : Fonts.State) (events : Mouse) :
    List Element → Option Clip → List Cmd
  | [], _ => []
  | c :: rest, clip =>
      drawClipped fonts events c clip ++ drawList fonts events rest clip

end

/-- A plain style at the origin, no decoration (`Style::default()` with the
layout-resolved position left at zero). -/
def style0 : Style :=
  ⟨0, 0, none, 0, none, 0, 1, Overflow.Visible, ⟨0, 0, 0, 0⟩, 0⟩

end Draw

/-! ## Runner iteration (src/src/app.rs)

The declaring module of this iteration's data types is not part of the
snapshot; the shapes below are reconstructed from their exhaustive uses in
src/src/app.rs (`Runner::resolve`, `Runner::measure`, `Runner::layout`,
`Runner::fire_callbacks`) and agree with spec §3.  Colors and button visual
styles are renderer payload and are elided; the `FnMut` callbacks are
modelled by presence flags. -/

namespace App

/-- `Size`: reconstructed from the match in `Runner::resolve`. -/
inductive Size where
  | Fixed (v : ℚ)
  | Fill
  | Percent (p : ℚ)
deriving DecidableEq

/-- `Align`: reconstructed from the exhaustive match in
`Runner::align_offset`. -/
inductive Align where
  | Start
  | Center
  | End
deriving DecidableEq

/-- `Edges`: four independent offsets, used for padding. -/
structure Edges where
  top : ℚ
  right : ℚ
  bottom : ℚ
  left : ℚ
deriving DecidableEq

/-- The `Style` fields consumed by `Runner::measure` / `Runner::layout`:
optional width/height requests, min/max clamps, padding and child
alignment. -/
structure Style where
  width : Option Size
  height : Option Size
  minWidth : Option ℚ
  maxWidth : Option ℚ
  minHeight : Option ℚ
  maxHeight : Option ℚ
  padding : Edges
  alignX : Align
  alignY : Align
deriving DecidableEq

/-- Which of the optional callbacks a Rect carries
(`callbacks.on_hover / on_just_hovered / on_just_unhovered / on_click`). -/
structure Callbacks where
  onHover : Bool
  onJustHovered : Bool
  onJustUnhovered : Bool
  onClick : Bool
deriving DecidableEq

/-- `Element`: the per-frame declarative tree of the runner iteration,
reconstructed from the match arms of `Runner::measure` / `Runner::layout`. -/
inductive Element where
  | Rect (w h : ℚ) (style : Style) (callbacks : Callbacks)
  | Text (content : String) (style : Style)
  | Button (label : String) (w h : ℚ) (style : Style) (hasOnClick : Bool)
  | Container (style : Style) (child : Element)
  | Row (gap : ℚ) (style : Style) (children : List Element)
  | Column (gap : ℚ) (style : Style) (children : List Element)
  | Overlay (style : Style) (children : List Element)
  | Scroll (scrollHeight scrollY : ℚ) (style : Style) (child : Element)
  | Empty

/-- `LayoutNode`: resolved rectangle plus kind payload, flattened into one
inductive (`LayoutNode { x, y, w, h, kind: LayoutKind }` in the source). -/
inductive LayoutNode where
  | Rect (x y w h : ℚ) (callbacks : Callbacks) (hovered : Bool)
  | Text (x y w h : ℚ) (content : String)
  | Button (x y w h : ℚ) (hasOnClick : Bool) (hovered : Bool)
  | Container (x y w h : ℚ) (child : LayoutNode)
  | Scroll (x y w h : ℚ) (child : LayoutNode) (clipH : ℚ)
  | Children (x y w h : ℚ) (nodes : List LayoutNode)
  | Empty (x y w h : ℚ)

/-- x coordinate of a layout node. -/
def LayoutNode.x : LayoutNode → ℚ
  | .Rect x _ _ _ _ _ => x
  | .Text x _ _ _ _ => x
  | .Button x _ _ _ _ _ => x
  | .Container x _ _ _ _ => x
  | .Scroll x _ _ _ _ _ => x
  | .Children x _ _ _ _ => x
  | .Empty x _ _ _ => x

/-- y coordinate of a layout node. -/
def LayoutNode.y : LayoutNode → ℚ
  | .Rect _ y _ _ _ _ => y
  | .Text _ y _ _ _ => y
  | .Button _ y _ _ _ _ => y
  | .Container _ y _ _ _ => y
  | .Scroll _ y _ _ _ _ => y
  | .Children _ y _ _ _ => y
  | .Empty _ y _ _ => y

/-- Width of a layout node. -/
def LayoutNode.w : LayoutNode → ℚ
  | .Rect _ _ w _ _ _ => w
  | .Text _ _ w _ _ => w
  | .Button _ _ w _ _ _ => w
  | .Container _ _ w _ _ => w
  | .Scroll _ _ w _ _ _ => w
  | .Children _ _ w _ _ => w
  | .Empty _ _ w _ => w

/-- Height of a layout node. -/
def LayoutNode.h : LayoutNode → ℚ
  | .Rect _ _ _ h _ _ => h
  | .Text _ _ _ h _ => h
  | .Button _ _ _ h _ _ => h
  | .Container _ _ _ h _ => h
  | .Scroll _ _ _ h _ _ => h
  | .Children _ _ _ h _ => h
  | .Empty _ _ _ h => h

/-- `node.x += dx` (the cross-axis alignment shift of the layout pass). -/
def LayoutNode.addX (nd : LayoutNode) (dx : ℚ) : LayoutNode :=
  match nd with
  | .Rect x y w h cb hv => .Rect (x + dx) y w h cb hv
  | .Text x y w h c => .Text (x + dx) y w h c
  | .Button x y w h oc hv => .Button (x + dx) y w h oc hv
  | .Container x y w h c => .Container (x + dx) y w h c
  | .Scroll x y w h c ch => .Scroll (x + dx) y w h c ch
  | .Children x y w h ns => .Children (x + dx) y w h ns
  | .Empty x y w h => .Empty (x + dx) y w h

/-- `node.y += dy` (the cross-axis alignment shift of the layout pass). -/
def LayoutNode.addY (nd : LayoutNode) (dy : ℚ) : LayoutNode :=
  match nd with
  | .Rect x y w h cb hv => .Rect x (y + dy) w h cb hv
  | .Text x y w h c => .Text x (y + dy) w h c
  | .Button x y w h oc hv => .Button x (y + dy) w h oc hv
  | .Container x y w h c => .Container x (y + dy) w h c
  | .Scroll x y w h c ch => .Scroll x (y + dy) w h c ch
  | .Children x y w h ns => .Children x (y + dy) w h ns
  | .Empty x y w h => .Empty x (y + dy) w h

/-- The child list of a `Children` layout node. -/
def LayoutNode.childNodes : LayoutNode → List LayoutNode
  | .Children _ _ _ _ ns => ns
  | _ => []

/-- `Runner::resolve`: resolve an optional size request against the natural
size and the available extent. -/
def resolve (size : Option Size) (natural avail : ℚ) : ℚ :=
  match size with
  | none => natural
  | some (Size.Fixed v) => v
  | some Size.Fill => avail
  | some (Size.Percent p) => avail * p / 100

/-- `Runner::clamp`: optional min then optional max. -/
def clamp (v : ℚ) (mi ma : Option ℚ) : ℚ :=
  let v1 := match mi with
    | none => v
    | some m => max v m
  match ma with
  | none => v1
  | some m => min v1 m

/-- `Runner::align_offset`. -/
def alignOffset (align : Align) (container child : ℚ) : ℚ :=
  match align with
  | Align.Start => 0
  | Align.Center => max ((container - child) / 2) 0
  | Align.End => max (container - child) 0

/-- `Runner::is_fill_w`: whether an element's declared width is `Fill`
(`Empty` has no style and is never a fill). -/
def isFillW (e : Element) : Bool :=
  match e with
  | Element.Empty => false
  | Element.Rect _ _ style _ => decide (style.width = some Size.Fill)
  | Element.Text _ style => decide (style.width = some Size.Fill)
  | Element.Button _ _ _ style _ => decide (style.width = some Size.Fill)
  | Element.Container style _ => decide (style.width = some Size.Fill)
  | Element.Row _ style _ => decide (style.width = some Size.Fill)
  | Element.Column _ style _ => decide (style.width = some Size.Fill)
  | Element.Overlay style _ => decide (style.width = some Size.Fill)
  | Element.Scroll _ _ style _ => decide (style.width = some Size.Fill)

mutual

/-- `Runner::measure` (src/src/app.rs): bottom-up natural size.  `mt` is the
external font service (`fonts.measure(content, default_font)`).  Row,
Overlay and Scroll fall into the source's wildcard arm
`_ => (avail_w, avail_h)`. -/
def measure (mt : String → ℚ × ℚ) : Element → ℚ → ℚ → ℚ × ℚ
  | Element.Rect w h style _, aw, ah =>
      let w1 := resolve style.width w aw
      let h1 := resolve style.height h ah
      (clamp w1 style.minWidth style.maxWidth + style.padding.left + style.padding.right,
       clamp h1 style.minHeight style.maxHeight + style.padding.top + style.padding.bottom)
  | Element.Text content style, aw, _ah =>
      let t := mt content
      let w1 := resolve style.width t.1 aw
      (clamp w1 style.minWidth style.maxWidth + style.padding.left + style.padding.right,
       t.2 + style.padding.top + style.padding.bottom)
  | Element.Button _ w h style _, aw, _ah =>
      let w1 := resolve style.width w aw
      (clamp w1 style.minWidth style.maxWidth + style.padding.left + style.padding.right,
       clamp h style.minHeight style.maxHeight + style.padding.top + style.padding.bottom)
  | Element.Container style child, aw, ah =>
      let iw := aw - style.padding.left - style.padding.right
      let ih := ah - style.padding.top - style.padding.bottom
      let c := measure mt child iw ih
      (clamp (resolve style.width (c.1 + style.padding.left + style.padding.right) aw)
         style.minWidth style.maxWidth,
       clamp (resolve style.height (c.2 + style.padding.top + style.padding.bottom) ah)
         style.minHeight style.maxHeight)
  | Element.Column gap style children, aw, ah =>
      let iw := aw - style.padding.left - style.padding.right
      let s := measureColChildren mt gap children iw ah
      (clamp (resolve style.width (s.1 + style.padding.left + style.padding.right) aw)
         style.minWidth style.maxWidth,
       resolve style.height (s.2 + style.padding.top + style.padding.bottom) ah)
  | Element.Empty, _aw, _ah => (0, 0)
  | Element.Row _ _ _, aw, ah => (aw, ah)
  | Element.Overlay _ _, aw, ah => (aw, ah)
  | Element.Scroll _ _ _ _, aw, ah => (aw, ah)

/-- The Column child loop of `Runner::measure`: `(max of child widths
folded from 0, total child height with a gap after every non-last child)`. -/
def measureColChildren (mt : String → ℚ × ℚ) (gap : ℚ) :
    List Element → ℚ → ℚ → ℚ × ℚ
  | [], _iw, _ah => (0, 0)
  | [c], iw, ah =>
      let m := measure mt c iw ah
      (max 0 m.1, m.2)
  | c :: c2 :: rest, iw, ah =>
      let m := measure mt c iw ah
      let s := measureColChildren mt gap (c2 :: rest) iw ah
      (max m.1 s.1, m.2 + gap + s.2)

end

/-- The first pass of the Row arm of `Runner::layout`: the measured widths
of non-Fill children accumulated into `fixed_w`, and the number of Fill
children (the loop runs left to right; sum and count are
order-independent). -/
def rowFixedFill (mt : String → ℚ × ℚ) : List Element → ℚ → ℚ → ℚ × ℕ
  | [], _iw, _ih => (0, 0)
  | c :: rest, iw, ih =>
      let s := rowFixedFill mt rest iw ih
      if isFillW c then (s.1, s.2 + 1)
      else ((measure mt c iw ih).1 + s.1, s.2)

mutual

/-- `Runner::layout` (src/src/app.rs): top-down resolution into a
`LayoutNode`.  `mt` is the external font service; `inf` stands for the
`f32::INFINITY` passed as the child height budget in the Scroll arm (no
claim under verification reaches that arm; ℚ has no infinity). -/
def layout (mt : String → ℚ × ℚ) (inf : ℚ) :
    Element → ℚ → ℚ → ℚ → ℚ → LayoutNode
  | Element.Rect w h style cb, x, y, aw, ah =>
      let p := style.padding
      let w1 := clamp (resolve style.width w (aw - p.left - p.right))
        style.minWidth style.maxWidth
      let h1 := clamp (resolve style.height h (ah - p.top - p.bottom))
        style.minHeight style.maxHeight
      LayoutNode.Rect (x + p.left) (y + p.top) w1 h1 cb false
  | Element.Text content style, x, y, aw, _ah =>
      let p := style.padding
      let t := mt content
      let w1 := clamp (resolve style.width t.1 (aw - p.left - p.right))
        style.minWidth style.maxWidth
      LayoutNode.Text (x + p.left) (y + p.top) w1 t.2 content
  | Element.Button _label w h style hasClick, x, y, aw, ah =>
      let p := style.padding
      let w1 := clamp (resolve style.width w (aw - p.left - p.right))
        style.minWidth style.maxWidth
      let h1 := clamp (resolve style.height h (ah - p.top - p.bottom))
        style.minHeight style.maxHeight
      LayoutNode.Button (x + p.left) (y + p.top) w1 h1 hasClick false
  | Element.Row gap style children, x, y, aw, ah =>
      let p := style.padding
      let innerW := resolve style.width aw aw - p.left - p.right
      let innerH := resolve style.height ah ah - p.top - p.bottom
      let n := children.length
      let gapInit : ℚ := if 0 < n then gap * ((n : ℚ) - 1) else 0
      let ff := rowFixedFill mt children innerW innerH
      let fixedW := gapInit + ff.1
      let fillW := if 0 < ff.2 then max (innerW - fixedW) 0 / (ff.2 : ℚ) else 0
      let s := rowChildren mt inf children (x + p.left) (y + p.top) innerW innerH gap fillW
      let rawW := s.2.1 - x - gap + p.right
      let rawH := s.2.2 + p.top + p.bottom
      let w1 := clamp (resolve style.width rawW aw) style.minWidth style.maxWidth
      let h1 := resolve style.height rawH ah
      let nodes :=
        if style.alignY ≠ Align.Start then
          s.1.map fun nd => nd.addY (alignOffset style.alignY (h1 - p.top - p.bottom) nd.h)
        else s.1
      LayoutNode.Children x y w1 h1 nodes
  | Element.Column gap style children, x, y, aw, ah =>
      let p := style.padding
      let innerW := resolve style.width aw aw - p.left - p.right
      let s := colChildren mt inf children (x + p.left) (y + p.top) innerW ah gap
      let rawW := s.2.2 + p.left + p.right
      let rawH := s.2.1 - y + p.bottom
      let w1 := clamp (resolve style.width rawW aw) style.minWidth style.maxWidth
      let h1 := resolve style.height rawH ah
      let nodes :=
        if style.alignX ≠ Align.Start then
          s.1.map fun nd => nd.addX (alignOffset style.alignX (w1 - p.left - p.right) nd.w)
        else s.1
      LayoutNode.Children x y w1 h1 nodes
  | Element.Container style child, x, y, aw, ah =>
      let p := style.padding
      let innerW := resolve style.width aw aw - p.left - p.right
      let innerH := resolve style.height ah ah - p.top - p.bottom
      let inner := layout mt inf child (x + p.left) (y + p.top) innerW innerH
      let rawW := inner.w + p.left + p.right
      let rawH := inner.h + p.top + p.bottom
      let w1 := clamp (resolve style.width rawW aw) style.minWidth style.maxWidth
      let h1 := clamp (resolve style.height rawH ah) style.minHeight style.maxHeight
      let inner1 := (inner.addX (alignOffset style.alignX (w1 - p.left - p.right) inner.w)).addY
        (alignOffset style.alignY (h1 - p.top - p.bottom) inner.h)
      LayoutNode.Container x y w1 h1 inner1
  | Element.Overlay style children, x, y, aw, ah =>
      let w1 := resolve style.width aw aw
      let h1 := resolve style.height ah ah
      LayoutNode.Children x y w1 h1 (overlayChildren mt inf children x y w1 h1)
  | Element.Scroll scrollHeight scrollY style child, x, y, aw, _ah =>
      let w1 := resolve style.width aw aw
      let inner := layout mt inf child x (y - scrollY) w1 inf
      LayoutNode.Scroll x y w1 scrollHeight inner scrollHeight
  | Element.Empty, x, y, _aw, _ah => LayoutNode.Empty x y 0 0

/-- The second pass of the Row arm of `Runner::layout`: lays out each child
at the cursor with `fill_w` (Fill children) or the full inner width budget,
advancing the cursor by `child width + gap`; returns
`(nodes, final cursor x, max child height folded from 0)`. -/
def rowChildren (mt : String → ℚ × ℚ) (inf : ℚ) :
    List Element → ℚ → ℚ → ℚ → ℚ → ℚ → ℚ → List LayoutNode × ℚ × ℚ
  | [], cx, _yTop, _iw, _ih, _gap, _fillW => ([], cx, 0)
  | c :: rest, cx, yTop, iw, ih, gap, fillW =>
      let childAvail := if isFillW c then fillW else iw
      let nd := layout mt inf c cx yTop childAvail ih
      let s := rowChildren mt inf rest (cx + nd.w + gap) yTop iw ih gap fillW
      (nd :: s.1, s.2.1, max s.2.2 nd.h)

/-- The child loop of the Column arm of `Runner::layout`: stacks children at
the cursor, advancing by `child height + gap`; returns
`(nodes, final cursor y, max child width folded from 0)`. -/
def colChildren (mt : String → ℚ × ℚ) (inf : ℚ) :
    List Element → ℚ → ℚ → ℚ → ℚ → ℚ → List LayoutNode × ℚ × ℚ
  | [], _xLeft, cy, _iw, _ah, _gap => ([], cy, 0)
  | c :: rest, xLeft, cy, iw, ah, gap =>
      let nd := layout mt inf c xLeft cy iw ah
      let s := colChildren mt inf rest xLeft (cy + nd.h + gap) iw ah gap
      (nd :: s.1, s.2.1, max s.2.2 nd.w)

/-- The child loop of the Overlay arm of `Runner::layout`: every child gets
the full resolved extent at the overlay's own origin. -/
def overlayChildren (mt : String → ℚ × ℚ) (inf : ℚ) :
    List Element → ℚ → ℚ → ℚ → ℚ → List LayoutNode
  | [], _x, _y, _w, _h => []
  | c :: rest, x, y, w, h =>
      layout mt inf c x y w h :: overlayChildren mt inf rest x y w h

end

/-- A callback invocation recorded by the dispatch traversal, tagged with
the traversal index of the node that fired it. -/
inductive Event where
  | hover (i : ℕ)
  | justHovered (i : ℕ)
  | justUnhovered (i : ℕ)
  | click (i : ℕ)
deriving DecidableEq

/-- The outputs of `Runner::fire_callbacks`: the callback invocations in
firing order, the index assigned to every visited node in visit order (the
ghost instrumentation of the `index` counter), the new hover set
(`hovered_this`, threaded through the traversal) and the final value of the
shared index counter. -/
structure FireResult where
  events : List Event
  visits : List ℕ
  hovered : Finset ℕ
  index : ℕ
deriving DecidableEq

mutual

/-- `Runner::fire_callbacks` (src/src/app.rs): every visited node takes the
current index and increments the shared counter; `over` tests the pointer
against `[x, x+w] × [y, y+h]` with inclusive bounds.  Rect nodes fire
hover / just-hovered / click when over (in that order) and just-unhovered
otherwise, gated on last frame's hover set; Button nodes only join the
hover set and fire click; Container/Scroll/Children route into their
children with the same counter; other kinds only consume an index. -/
def fireCallbacks (mx my : ℚ) (clicked : Bool) (hl : Finset ℕ) :
    LayoutNode → Finset ℕ → ℕ → FireResult
  | LayoutNode.Rect x y w h cb _hv, ht, index =>
      let i := index
      if mx ≥ x ∧ mx ≤ x + w ∧ my ≥ y ∧ my ≤ y + h then
        { events :=
            (if cb.onHover then [Event.hover i] else []) ++
            (if i ∉ hl then
              (if cb.onJustHovered then [Event.justHovered i] else []) else []) ++
            (if clicked then
              (if cb.onClick then [Event.click i] else []) else []),
          visits := [i], hovered := insert i ht, index := i + 1 }
      else
        { events :=
            if i ∈ hl then
              (if cb.onJustUnhovered then [Event.justUnhovered i] else []) else [],
          visits := [i], hovered := ht, index := i + 1 }
  | LayoutNode.Button x y w h hasClick _hv, ht, index =>
      let i := index
      if mx ≥ x ∧ mx ≤ x + w ∧ my ≥ y ∧ my ≤ y + h then
        { events :=
            if clicked then (if hasClick then [Event.click i] else []) else [],
          visits := [i], hovered := insert i ht, index := i + 1 }
      else
        { events := [], visits := [i], hovered := ht, index := i + 1 }
  | LayoutNode.Container _x _y _w _h child, ht, index =>
      let r := fireCallbacks mx my clicked hl child ht (index + 1)
      { r with visits := index :: r.visits }
  | LayoutNode.Scroll _x _y _w _h child _clipH, ht, index =>
      let r := fireCallbacks mx my clicked hl child ht (index + 1)
      { r with visits := index :: r.visits }
  | LayoutNode.Children _x _y _w _h ns, ht, index =>
      let r := fireList mx my clicked hl ns ht (index + 1)
      { r with visits := index :: r.visits }
  | LayoutNode.Text _x _y _w _h _c, ht, index =>
      { events := [], visits := [index], hovered := ht, index := index + 1 }
  | LayoutNode.Empty _x _y _w _h, ht, index =>
      { events := [], visits := [index], hovered := ht, index := index + 1 }

/-- The child loop of the `Children` arm of `Runner::fire_callbacks`:
left-to-right, threading the hover set and the shared index counter. -/
def fireList (mx my : ℚ) (clicked : Bool) (hl : Finset ℕ) :
    List LayoutNode → Finset ℕ → ℕ → FireResult
  | [], ht, index => { events := [], visits := [], hovered := ht, index := index }
  | nd :: rest, ht, index =>
      let r := fireCallbacks mx my clicked hl nd ht index
      let s := fireList mx my clicked hl rest r.hovered r.index
      { events := r.events ++ s.events, visits := r.visits ++ s.visits,
        hovered := s.hovered, index := s.index }

end

mutual

/-- The number of nodes the dispatch traversal visits under a node
(the node itself plus, for container kinds, all descendants). -/
def nodeCount : LayoutNode → ℕ
  | LayoutNode.Container _ _ _ _ c => 1 + nodeCount c
  | LayoutNode.Scroll _ _ _ _ c _ => 1 + nodeCount c
  | LayoutNode.Children _ _ _ _ ns => 1 + nodeListCount ns
  | _ => 1

/-- Total visit count of a list of sibling nodes. -/
def nodeListCount : List LayoutNode → ℕ
  | [] => 0
  | nd :: rest => nodeCount nd + nodeListCount rest

end

/-- The bare recursion shape of a layout tree: which nodes have which
children, with every payload erased. -/
inductive STree where
  | mk (children : List STree)

mutual

/-- The traversal shape of a layout node: leaf kinds erase to a childless
shape, Container/Scroll to a one-child shape, Children to its list. -/
def shape : LayoutNode → STree
  | LayoutNode.Container _ _ _ _ c => STree.mk [shape c]
  | LayoutNode.Scroll _ _ _ _ c _ => STree.mk [shape c]
  | LayoutNode.Children _ _ _ _ ns => STree.mk (shapeList ns)
  | _ => STree.mk []

/-- Shapes of a list of sibling nodes. -/
def shapeList : List LayoutNode → List STree
  | [] => []
  | nd :: rest => shape nd :: shapeList rest

end

mutual

/-- Visit count determined by a shape alone. -/
def shapeCount : STree → ℕ
  | STree.mk children => 1 + shapeListCount children

/-- Visit count of a list of shapes. -/
def shapeListCount : List STree → ℕ
  | [] => 0
  | s :: rest => shapeCount s + shapeListCount rest

end

/-- A "plain" rect child: a `Rect` with no horizontal padding and no width
clamps, so its laid-out width coincides with its measured width. -/
def plainW (e : Element) : Bool :=
  match e with
  | Element.Rect _ _ style _ =>
      decide (style.padding.left = 0) && decide (style.padding.right = 0) &&
      decide (style.minWidth = none) && decide (style.maxWidth = none)
  | _ => false

/-- A style with no size request, no clamps, no padding, Start alignment. -/
def styleDefault : Style :=
  ⟨none, none, none, none, none, none, ⟨0, 0, 0, 0⟩, Align.Start, Align.Start⟩

/-- `styleDefault` with a width request. -/
def styleW (w : Size) : Style :=
  { styleDefault with width := some w }

/-- `styleDefault` with a width request and horizontal padding. -/
def styleWPadH (w : Size) (l r : ℚ) : Style :=
  { styleDefault with width := some w, padding := ⟨0, r, 0, l⟩ }

/-- No callbacks. -/
def cb0 : Callbacks := ⟨false, false, false, false⟩

/-- All four callbacks present. -/
def cbAll : Callbacks := ⟨true, true, true, true⟩

/-- A trivial font-measurement service for concrete layout inputs. -/
def mt0 : String → ℚ × ℚ := fun _ => (0, 0)

/-- The Row's inner main-axis width: the container's resolved width minus
horizontal padding (`inner_avail_w` in the Row arm of `Runner::layout`). -/
def rowInnerW (style : Style) (aw : ℚ) : ℚ :=
  resolve style.width aw aw - style.padding.left - style.padding.right

/-- The Row's inner cross-axis height (`inner_avail_h`). -/
def rowInnerH (style : Style) (ah : ℚ) : ℚ :=
  resolve style.height ah ah - style.padding.top - style.padding.bottom

/-- The measured widths of the non-Fill children, summed (the `F` of the
claim). -/
def nonFillMeasuredSum (mt : String → ℚ × ℚ) (cs : List Element) (iw ih : ℚ) : ℚ :=
  ((cs.filter fun c => !isFillW c).map fun c => (measure mt c iw ih).1).sum

/-- The number of Fill-width children (the `k` of the claim). -/
def fillCount (cs : List Element) : ℕ :=
  (cs.filter fun c => isFillW c).length

/-- The claim's per-Fill-child share `max(0, W - g*(n-1) - F) / k`. -/
def rowFillShare (W g F : ℚ) (n k : ℕ) : ℚ :=
  max (W - g * ((n : ℚ) - 1) - F) 0 / (k : ℚ)

end App

end Maleo

namespace Maleo

/-! ## Shared helper lemmas -/

/-- `clamp` with no bounds is the identity. -/
theorem App.clamp_none (v : ℚ) : App.clamp v none none = v := rfl

/-- The y-shift of the cross-axis alignment step keeps widths. -/
theorem App.LayoutNode.addY_w (nd : App.LayoutNode) (d : ℚ) : (nd.addY d).w = nd.w := by
  cases nd <;> rfl

/-- The y-shift of the cross-axis alignment step keeps heights. -/
theorem App.LayoutNode.addY_h (nd : App.LayoutNode) (d : ℚ) : (nd.addY d).h = nd.h := by
  cases nd <;> rfl

/-- The x-shift of the cross-axis alignment step keeps widths. -/
theorem App.LayoutNode.addX_w (nd : App.LayoutNode) (d : ℚ) : (nd.addX d).w = nd.w := by
  cases nd <;> rfl

/-! ## C8: font resolution fallback -/

/-- C8: `Fonts::resolve` with a registered name returns its id; with an
unknown or absent name it falls back to the configured default; it returns
`none` iff the requested name (if any) does not resolve and no default font
was ever registered. -/
theorem claim8_font_resolve (st : Fonts.State) (n : String) :
    (∀ id, Fonts.getByName st n = some id → Fonts.resolve st (some n) = some id) ∧
    (Fonts.getByName st n = none → Fonts.resolve st (some n) = st.default) ∧
    Fonts.resolve st none = st.default ∧
    (∀ nm : Option String, Fonts.resolve st nm = none ↔
      (∀ s, nm = some s → Fonts.getByName st s = none) ∧ st.default = none) := by
  refine ⟨?_, ?_, rfl, ?_⟩
  · intro id h
    simp [Fonts.resolve, h]
  · intro h
    simp [Fonts.resolve, h]
  · intro nm
    cases nm with
    | none => simp [Fonts.resolve]
    | some s =>
      cases hg : Fonts.getByName st s with
      | none => simp [Fonts.resolve, hg]
      | some id => simp [Fonts.resolve, hg]

/-- Witness for C8 at a concrete one-font registry. -/
theorem claim8_font_resolve_witness :
    Fonts.getByName Fonts.fontState0 "body" = some 0 ∧
    Fonts.resolve Fonts.fontState0 (some "body") = some 0 :=
  ⟨rfl, (claim8_font_resolve Fonts.fontState0 "body").1 0 rfl⟩

/-! ## C10: re-adding an existing font name -/

/-- C10: `Fonts::add` under an already-registered name returns the existing
id and leaves the whole state unchanged — the stored entry keeps its family
and size even when the new arguments differ, nothing is appended, and the
name-to-id map is untouched. -/
theorem claim10_add_existing (st : Fonts.State) (name family : String) (size : ℚ)
    (id : ℕ) (h : Fonts.getByName st name = some id) :
    Fonts.add st name family size = (st, id) := by
  simp [Fonts.add, h]

/-- Witness for C10: re-registering `"body"` with a different family and
size returns the old id and the unchanged registry. -/
theorem claim10_add_existing_witness :
    Fonts.add Fonts.fontState0 "body" "Comic Sans" 99 = (Fonts.fontState0, 0) :=
  claim10_add_existing Fonts.fontState0 "body" "Comic Sans" 99 0 rfl

/-! ## C9: text measurement determinism -/

/-- C9 counterexample: on a fresh cache, two sizes in the same `0.1`
quantum (`10` and `10.09`) produce different measurements — the miss path
shapes with the exact size (`line_height = size * 1.4`), so the result does
not depend only on `(font id, text, quantized size)`.  The quantization
only keys the cache. -/
theorem claim9_quantized_size_ce :
    Fonts.quantKey 10 = Fonts.quantKey (1009 / 100) ∧
    (Fonts.measureSized Fonts.runs0 Fonts.fontState0 "a" 0 10).1 ≠
      (Fonts.measureSized Fonts.runs0 Fonts.fontState0 "a" 0 (1009 / 100)).1 := by
  constructor
  · show (⌊(10 : ℚ) * 10⌋).toNat = (⌊(1009 : ℚ) / 100 * 10⌋).toNat
    norm_num
  · have h1 : (Fonts.measureSized Fonts.runs0 Fonts.fontState0 "a" 0 10).1 = (6, 14) := by
      simp [Fonts.measureSized, Fonts.fontState0, Fonts.runs0, Fonts.shapeMeasure,
        Fonts.quantKey, show "a".length = 1 from rfl]
      norm_num
    have h2 : (Fonts.measureSized Fonts.runs0 Fonts.fontState0 "a" 0 (1009 / 100)).1 =
        (3027 / 500, 7063 / 500) := by
      simp [Fonts.measureSized, Fonts.fontState0, Fonts.runs0, Fonts.shapeMeasure,
        Fonts.quantKey, show "a".length = 1 from rfl]
      norm_num
    rw [h1, h2]
    norm_num

/-- C9 amended: measurement is deterministic given the threaded state — a
repeated call (indeed any later call whose size falls in the same `0.1`
quantum) returns exactly the first call's result and leaves the state
unchanged, and a cache hit returns exactly the value stored by the miss
that populated it; the result depends on the font id, the text, the exact
size and the prior cache contents (keyed by the size quantized to `0.1`),
never on any position. -/
theorem claim9_measure_deterministic (runs : String → String → ℚ → List ℚ)
    (st : Fonts.State) (t : String) (id : ℕ) (sz : ℚ) :
    (∀ sz', Fonts.quantKey sz' = Fonts.quantKey sz →
      Fonts.measureSized runs (Fonts.measureSized runs st t id sz).2 t id sz' =
        Fonts.measureSized runs st t id sz) ∧
    (∀ v, st.measureCache.lookup (id, t, Fonts.quantKey sz) = some v →
      Fonts.measureSized runs st t id sz = (v, st)) := by
  constructor
  · intro sz' h
    cases hc : st.measureCache.lookup (id, t, Fonts.quantKey sz) with
    | some v => simp [Fonts.measureSized, hc, h]
    | none => simp [Fonts.measureSized, hc, h]
  · intro v h
    simp [Fonts.measureSized, h]

/-- Witness for C9 (amended): after measuring `"a"` at size `10`, measuring
again at `10.09` (same `0.1` quantum) is a cache hit returning the first
result and state. -/
theorem claim9_measure_deterministic_witness :
    Fonts.measureSized Fonts.runs0
        (Fonts.measureSized Fonts.runs0 Fonts.fontState0 "a" 0 10).2 "a" 0 (1009 / 100) =
      Fonts.measureSized Fonts.runs0 Fonts.fontState0 "a" 0 10 :=
  (claim9_measure_deterministic Fonts.runs0 Fonts.fontState0 "a" 0 10).1 (1009 / 100)
    (by show (⌊(1009 : ℚ) / 100 * 10⌋).toNat = (⌊(10 : ℚ) * 10⌋).toNat; norm_num)

/-! ## C6: clip intersection -/

/-- C6: nesting two Hidden/Scroll containers whose rectangles induce clips
`A` then `B` yields exactly `intersect(A, B)` for descendants; the
intersection is commutative and associative; a Visible container passes the
parent clip through unchanged. -/
theorem claim6_clip_intersection (x1 y1 w1 h1 x2 y2 w2 h2 x y w h : ℚ)
    (o1 o2 : Draw.Overflow) (pc : Option Draw.Clip)
    (ho1 : o1 = Draw.Overflow.Hidden ∨ o1 = Draw.Overflow.Scroll)
    (ho2 : o2 = Draw.Overflow.Hidden ∨ o2 = Draw.Overflow.Scroll) :
    Draw.makeChildClip x2 y2 w2 h2 o2 (Draw.makeChildClip x1 y1 w1 h1 o1 none) =
      some (Draw.Clip.inter ⟨x1, y1, x1 + w1, y1 + h1⟩ ⟨x2, y2, x2 + w2, y2 + h2⟩) ∧
    (∀ a b : Draw.Clip, Draw.Clip.inter a b = Draw.Clip.inter b a) ∧
    (∀ a b c : Draw.Clip,
      Draw.Clip.inter (Draw.Clip.inter a b) c = Draw.Clip.inter a (Draw.Clip.inter b c)) ∧
    Draw.makeChildClip x y w h Draw.Overflow.Visible pc = pc := by
  refine ⟨?_, ?_, ?_, ?_⟩
  · rcases ho1 with h1' | h1' <;> rcases ho2 with h2' | h2' <;>
      subst h1' <;> subst h2' <;>
      simp [Draw.makeChildClip, Draw.Clip.inter, max_comm, min_comm]
  · intro a b
    simp [Draw.Clip.inter, max_comm, min_comm]
  · intro a b c
    simp [Draw.Clip.inter, max_assoc, min_assoc]
  · simp [Draw.makeChildClip]

/-- Witness for C6: two concrete nested Hidden/Scroll clips. -/
theorem claim6_clip_intersection_witness :
    Draw.makeChildClip 5 5 10 10 Draw.Overflow.Scroll
        (Draw.makeChildClip 0 0 10 10 Draw.Overflow.Hidden none) =
      some (Draw.Clip.inter ⟨0, 0, 0 + 10, 0 + 10⟩ ⟨5, 5, 5 + 10, 5 + 10⟩) :=
  (claim6_clip_intersection 0 0 10 10 5 5 10 10 0 0 1 1
    Draw.Overflow.Hidden Draw.Overflow.Scroll none (Or.inl rfl) (Or.inr rfl)).1

/-! ## C7: culling against the active clip -/

/-- `draw_shape` always emits exactly one renderer command. -/
theorem Draw.drawShape_ne_nil (x y w h r : ℚ) (clip : Option Draw.Clip) :
    Draw.drawShape x y w h r clip ≠ [] := by
  unfold Draw.drawShape
  split
  · cases clip with
    | none => simp
    | some c => dsimp only; split <;> simp
  · cases clip <;> simp

/-- C7 counterexample: a Row whose rectangle is fully outside the active
clip is not culled — its background shape command is still emitted (the
claim asserts culling for every node kind). -/
theorem claim7_row_not_culled_ce :
    Draw.isOutside 0 0 100 40 (some ⟨200, 200, 300, 300⟩) = true ∧
    Draw.drawClipped Fonts.fontStateEmpty ⟨0, 0, false⟩
        (Draw.Element.Row { Draw.style0 with background := some ⟨1, 1, 1, 1⟩ } [] 100 40)
        (some ⟨200, 200, 300, 300⟩) =
      [Draw.Cmd.rectClipped 0 0 100 40 ⟨200, 200, 300, 300⟩] := by
  constructor
  · norm_num [Draw.isOutside]
  · simp [Draw.drawClipped, Draw.drawList, Draw.drawShadow, Draw.drawShape,
      Draw.makeChildClip, Draw.style0]

/-- C7 amended: culling by `is_outside` iff fully outside holds for Rect
and Button nodes (with their resolved rectangles); a Text node is culled
against a 1×1 probe at its origin rather than its rectangle; Row and Column
nodes are never culled — with a background they emit its shape command even
when fully outside the clip (their children are culled individually). -/
theorem claim7_culling (fonts : Fonts.State) (m : Draw.Mouse) (clip : Option Draw.Clip) :
    (∀ (color : Draw.Color) (style : Draw.Style) (rw rh : ℚ),
      Draw.drawClipped fonts m (Draw.Element.Rect color style rw rh) clip = [] ↔
        Draw.isOutside style.x style.y rw rh clip = true) ∧
    (∀ (label : String) (hc : Bool) (style : Draw.Style) (rx ry rw rh : ℚ),
      Draw.drawClipped fonts m (Draw.Element.Button label hc style rx ry rw rh) clip = [] ↔
        Draw.isOutside rx ry rw rh clip = true) ∧
    (∀ (content : String) (font : Option String) (style : Draw.Style),
      Draw.drawClipped fonts m (Draw.Element.Text content font style) clip = [] ↔
        Draw.isOutside style.x style.y 1 1 clip = true) ∧
    (∀ (style : Draw.Style) (children : List Draw.Element) (rw rh : ℚ)
      (bg : Draw.Color), style.background = some bg →
      Draw.drawClipped fonts m (Draw.Element.Row style children rw rh) clip ≠ []) ∧
    (∀ (style : Draw.Style) (children : List Draw.Element) (rw rh : ℚ)
      (bg : Draw.Color), style.background = some bg →
      Draw.drawClipped fonts m (Draw.Element.Column style children rw rh) clip ≠ []) := by
  refine ⟨?_, ?_, ?_, ?_, ?_⟩
  · intro color style rw rh
    cases h : Draw.isOutside style.x style.y rw rh clip with
    | false => simp [Draw.drawClipped, h, Draw.drawShape_ne_nil]
    | true => simp [Draw.drawClipped, h]
  · intro label hc style rx ry rw rh
    cases h : Draw.isOutside rx ry rw rh clip with
    | false =>
      cases hd : fonts.default <;>
        simp [Draw.drawClipped, h, hd, Draw.drawShape_ne_nil]
    | true => simp [Draw.drawClipped, h]
  · intro content font style
    cases h : Draw.isOutside style.x style.y 1 1 clip with
    | false =>
      cases hr : Fonts.resolve fonts font with
      | none => simp [Draw.drawClipped, h, hr]
      | some id => simp [Draw.drawClipped, h, hr]
    | true => simp [Draw.drawClipped, h]
  · intro style children rw rh bg hbg
    simp [Draw.drawClipped, hbg, Draw.drawShape_ne_nil]
  · intro style children rw rh bg hbg
    simp [Draw.drawClipped, hbg, Draw.drawShape_ne_nil]

/-- Witness for C7 (amended): a concrete Rect fully outside the clip is
culled (empty command list). -/
theorem claim7_culling_witness :
    Draw.drawClipped Fonts.fontStateEmpty ⟨0, 0, false⟩
        (Draw.Element.Rect ⟨1, 1, 1, 1⟩ Draw.style0 10 10) (some ⟨200, 200, 300, 300⟩) = [] :=
  (claim7_culling Fonts.fontStateEmpty ⟨0, 0, false⟩ (some ⟨200, 200, 300, 300⟩)).1
    ⟨1, 1, 1, 1⟩ Draw.style0 10 10 |>.mpr (by norm_num [Draw.isOutside, Draw.style0])

/-! ## C3: click requires over AND just-pressed -/

/-- `draw_shape` never emits a click. -/
theorem Draw.click_not_mem_drawShape (l : String) (x y w h r : ℚ)
    (clip : Option Draw.Clip) : Draw.Cmd.click l ∉ Draw.drawShape x y w h r clip := by
  unfold Draw.drawShape
  split
  · cases clip with
    | none => simp
    | some c => dsimp only; split <;> simp
  · cases clip <;> simp

/-- `draw_shadow` never emits a click. -/
theorem Draw.click_not_mem_drawShadow (l : String) (x y w h : ℚ)
    (style : Draw.Style) : Draw.Cmd.click l ∉ Draw.drawShadow x y w h style := by
  unfold Draw.drawShadow
  split <;> simp

/-- C3 counterexample: in the draw-traversal iteration, a Button fully
outside the active clip is culled before dispatch, so even with the pointer
inside its rectangle and `left_just_pressed = true` the click callback does
not fire — refuting the unconditional "fires iff over and pressed". -/
theorem claim3_culled_click_ce :
    Draw.Mouse.over ⟨50, 20, true⟩ 0 0 100 40 = true ∧
    (⟨50, 20, true⟩ : Draw.Mouse).leftJustPressed = true ∧
    Draw.drawClipped Fonts.fontStateEmpty ⟨50, 20, true⟩
        (Draw.Element.Button "ok" true Draw.style0 0 0 100 40)
        (some ⟨200, 200, 300, 300⟩) = [] := by
  have hout : Draw.isOutside 0 0 100 40 (some ⟨200, 200, 300, 300⟩) = true := by
    norm_num [Draw.isOutside]
  exact ⟨by norm_num [Draw.Mouse.over], rfl, by simp [Draw.drawClipped, hout]⟩

/-- C3 amended: in the runner iteration (`Runner::fire_callbacks`), for a
Rect carrying an `on_click` callback and for a Button with an `on_click`
callback, click fires iff the pointer is inside `[x, x+w] × [y, y+h]`
(inclusive bounds) and `left_button_just_pressed` holds; in the
draw-traversal iteration, provided a default font is registered (without
one the traversal aborts at `default_id().unwrap()` before dispatch), a
Button additionally requires not being culled by the active clip: click
fires iff over, pressed, and not fully outside the clip. -/
theorem claim3_click_iff :
    (∀ (x y w h mx my : ℚ) (ch cjh cju : Bool) (clicked : Bool)
      (hl ht : Finset ℕ) (i : ℕ),
      App.Event.click i ∈ (App.fireCallbacks mx my clicked hl
          (App.LayoutNode.Rect x y w h ⟨ch, cjh, cju, true⟩ false) ht i).events ↔
        ((mx ≥ x ∧ mx ≤ x + w ∧ my ≥ y ∧ my ≤ y + h) ∧ clicked = true)) ∧
    (∀ (x y w h mx my : ℚ) (clicked : Bool) (hl ht : Finset ℕ) (i : ℕ),
      App.Event.click i ∈ (App.fireCallbacks mx my clicked hl
          (App.LayoutNode.Button x y w h true false) ht i).events ↔
        ((mx ≥ x ∧ mx ≤ x + w ∧ my ≥ y ∧ my ≤ y + h) ∧ clicked = true)) ∧
    (∀ (fonts : Fonts.State) (m : Draw.Mouse) (label : String)
      (style : Draw.Style) (rx ry rw rh : ℚ) (clip : Option Draw.Clip) (fid : ℕ),
      fonts.default = some fid →
      (Draw.Cmd.click label ∈ Draw.drawClipped fonts m
          (Draw.Element.Button label true style rx ry rw rh) clip ↔
        (m.over rx ry rw rh = true ∧ m.leftJustPressed = true ∧
          Draw.isOutside rx ry rw rh clip = false))) := by
  refine ⟨?_, ?_, ?_⟩
  · intro x y w h mx my ch cjh cju clicked hl ht i
    by_cases hov : mx ≥ x ∧ mx ≤ x + w ∧ my ≥ y ∧ my ≤ y + h
    · cases clicked <;> simp [App.fireCallbacks, hov]
    · cases clicked <;> simp [App.fireCallbacks, hov]
  · intro x y w h mx my clicked hl ht i
    by_cases hov : mx ≥ x ∧ mx ≤ x + w ∧ my ≥ y ∧ my ≤ y + h
    · cases clicked <;> simp [App.fireCallbacks, hov]
    · cases clicked <;> simp [App.fireCallbacks, hov]
  · intro fonts m label style rx ry rw rh clip fid hd
    cases hout : Draw.isOutside rx ry rw rh clip with
    | true => simp [Draw.drawClipped, hout]
    | false =>
      have hs := Draw.click_not_mem_drawShape label rx ry rw rh style.borderRadius clip
      have hh := Draw.click_not_mem_drawShadow label rx ry rw rh style
      cases hb : m.over rx ry rw rh <;>
        cases hp : m.leftJustPressed <;>
          simp [Draw.drawClipped, hout, hd, hb, hp, hs, hh]

/-- Witness for C3 (amended): a concrete over-and-pressed Button fires
click in the runner iteration, and in the draw iteration under a registry
with a default font. -/
theorem claim3_click_iff_witness :
    App.Event.click 0 ∈ (App.fireCallbacks 50 20 true ∅
        (App.LayoutNode.Button 0 0 100 40 true false) ∅ 0).events ∧
    Draw.Cmd.click "ok" ∈ Draw.drawClipped Fonts.fontState0 ⟨50, 20, true⟩
        (Draw.Element.Button "ok" true Draw.style0 0 0 100 40) none :=
  ⟨(claim3_click_iff.2.1 0 0 100 40 50 20 true ∅ ∅ 0).mpr (by norm_num),
   (claim3_click_iff.2.2 Fonts.fontState0 ⟨50, 20, true⟩ "ok" Draw.style0 0 0 100 40 none 0
      rfl).mpr ⟨by norm_num [Draw.Mouse.over], rfl, rfl⟩⟩

/-! ## C5: pre-order index assignment -/

mutual

/-- Every dispatch traversal assigns the indices `i, i+1, ...` to the nodes
it visits, in pre-order, and leaves the counter advanced by the number of
visited nodes — independently of pointer, buttons and hover sets. -/
theorem App.fireCallbacks_visits (mx my : ℚ) (clicked : Bool) (hl : Finset ℕ) :
    ∀ (node : App.LayoutNode) (ht : Finset ℕ) (i : ℕ),
      (App.fireCallbacks mx my clicked hl node ht i).visits =
        List.range' i (App.nodeCount node) ∧
      (App.fireCallbacks mx my clicked hl node ht i).index = i + App.nodeCount node
  | App.LayoutNode.Rect _ _ _ _ _ _, ht, i => by
      unfold App.fireCallbacks App.nodeCount
      split <;> simp
  | App.LayoutNode.Button _ _ _ _ _ _, ht, i => by
      unfold App.fireCallbacks App.nodeCount
      split <;> simp
  | App.LayoutNode.Text _ _ _ _ _, ht, i => by
      unfold App.fireCallbacks App.nodeCount
      simp
  | App.LayoutNode.Empty _ _ _ _, ht, i => by
      unfold App.fireCallbacks App.nodeCount
      simp
  | App.LayoutNode.Container _ _ _ _ child, ht, i => by
      have ih := App.fireCallbacks_visits mx my clicked hl child ht (i + 1)
      unfold App.fireCallbacks App.nodeCount
      refine ⟨?_, ?_⟩
      · simp only [ih.1]
        rw [Nat.add_comm 1 (App.nodeCount child), List.range'_succ]
      · simp only [ih.2]
        omega
  | App.LayoutNode.Scroll _ _ _ _ child _, ht, i => by
      have ih := App.fireCallbacks_visits mx my clicked hl child ht (i + 1)
      unfold App.fireCallbacks App.nodeCount
      refine ⟨?_, ?_⟩
      · simp only [ih.1]
        rw [Nat.add_comm 1 (App.nodeCount child), List.range'_succ]
      · simp only [ih.2]
        omega
  | App.LayoutNode.Children _ _ _ _ ns, ht, i => by
      have ih := App.fireList_visits mx my clicked hl ns ht (i + 1)
      unfold App.fireCallbacks App.nodeCount
      refine ⟨?_, ?_⟩
      · simp only [ih.1]
        rw [Nat.add_comm 1 (App.nodeListCount ns), List.range'_succ]
      · simp only [ih.2]
        omega

/-- List version of `fireCallbacks_visits` for the `Children` loop. -/
theorem App.fireList_visits (mx my : ℚ) (clicked : Bool) (hl : Finset ℕ) :
    ∀ (ns : List App.LayoutNode) (ht : Finset ℕ) (i : ℕ),
      (App.fireList mx my clicked hl ns ht i).visits =
        List.range' i (App.nodeListCount ns) ∧
      (App.fireList mx my clicked hl ns ht i).index = i + App.nodeListCount ns
  | [], ht, i => by
      unfold App.fireList App.nodeListCount
      simp
  | nd :: rest, ht, i => by
      have ih1 := App.fireCallbacks_visits mx my clicked hl nd ht i
      have ih2 := App.fireList_visits mx my clicked hl rest
        (App.fireCallbacks mx my clicked hl nd ht i).hovered
        (App.fireCallbacks mx my clicked hl nd ht i).index
      rw [ih1.2] at ih2
      unfold App.fireList App.nodeListCount
      dsimp only
      refine ⟨?_, ?_⟩
      · rw [ih1.1, ih1.2, ih2.1, List.range'_append_1,
          Nat.add_comm (App.nodeListCount rest) (App.nodeCount nd)]
      · rw [ih1.2, ih2.2]
        omega

end

mutual

/-- The visit count of a tree only depends on its traversal shape. -/
theorem App.nodeCount_shape : ∀ node : App.LayoutNode,
    App.nodeCount node = App.shapeCount (App.shape node)
  | App.LayoutNode.Rect _ _ _ _ _ _ => rfl
  | App.LayoutNode.Button _ _ _ _ _ _ => rfl
  | App.LayoutNode.Text _ _ _ _ _ => rfl
  | App.LayoutNode.Empty _ _ _ _ => rfl
  | App.LayoutNode.Container _ _ _ _ child => by
      have ih := App.nodeCount_shape child
      simp [App.nodeCount, App.shape, App.shapeCount, App.shapeListCount, ih]
  | App.LayoutNode.Scroll _ _ _ _ child _ => by
      have ih := App.nodeCount_shape child
      simp [App.nodeCount, App.shape, App.shapeCount, App.shapeListCount, ih]
  | App.LayoutNode.Children _ _ _ _ ns => by
      have ih := App.nodeListCount_shape ns
      simp [App.nodeCount, App.shape, App.shapeCount, ih]

/-- List version of `nodeCount_shape`. -/
theorem App.nodeListCount_shape : ∀ ns : List App.LayoutNode,
    App.nodeListCount ns = App.shapeListCount (App.shapeList ns)
  | [] => rfl
  | nd :: rest => by
      have ih1 := App.nodeCount_shape nd
      have ih2 := App.nodeListCount_shape rest
      unfold App.nodeListCount App.shapeList App.shapeListCount
      omega

end

/-- C5: the hit-test/dispatch traversal visits the LayoutNode tree in
pre-order and assigns every visited node — of any kind, empties, text nodes
and containers included — the strictly increasing indices `0, 1, 2, ...`
from one shared counter threaded through nested containers; two traversals
of trees with the same shape assign each node the same index. -/
theorem claim5_preorder_indexing (node : App.LayoutNode) (mx my : ℚ) (clicked : Bool)
    (hl ht : Finset ℕ) :
    (App.fireCallbacks mx my clicked hl node ht 0).visits =
      List.range' 0 (App.nodeCount node) ∧
    List.Pairwise (· < ·) (App.fireCallbacks mx my clicked hl node ht 0).visits ∧
    (App.fireCallbacks mx my clicked hl node ht 0).index = App.nodeCount node ∧
    (∀ (node' : App.LayoutNode) (mx' my' : ℚ) (clicked' : Bool) (hl' ht' : Finset ℕ),
      App.shape node' = App.shape node →
      (App.fireCallbacks mx' my' clicked' hl' node' ht' 0).visits =
        (App.fireCallbacks mx my clicked hl node ht 0).visits) := by
  have h := App.fireCallbacks_visits mx my clicked hl node ht 0
  refine ⟨h.1, ?_, by simpa using h.2, ?_⟩
  · rw [h.1]
    exact List.pairwise_lt_range' 0 (App.nodeCount node)
  · intro node' mx' my' clicked' hl' ht' hsh
    have h' := App.fireCallbacks_visits mx' my' clicked' hl' node' ht' 0
    rw [h.1, h'.1, App.nodeCount_shape, App.nodeCount_shape, hsh]

/-- Witness for C5: two trees of the same shape but different kinds,
positions and inputs receive the same index assignment. -/
theorem claim5_preorder_indexing_witness :
    (App.fireCallbacks 7 7 true {3} (App.LayoutNode.Children 5 5 9 9
        [App.LayoutNode.Text 0 0 1 1 "x", App.LayoutNode.Button 0 0 1 1 false false])
        {4} 0).visits =
      (App.fireCallbacks 0 0 false ∅ (App.LayoutNode.Children 0 0 0 0
        [App.LayoutNode.Empty 0 0 0 0, App.LayoutNode.Rect 0 0 1 1 App.cb0 false])
        ∅ 0).visits :=
  (claim5_preorder_indexing (App.LayoutNode.Children 0 0 0 0
      [App.LayoutNode.Empty 0 0 0 0, App.LayoutNode.Rect 0 0 1 1 App.cb0 false])
      0 0 false ∅ ∅).2.2.2
    (App.LayoutNode.Children 5 5 9 9
      [App.LayoutNode.Text 0 0 1 1 "x", App.LayoutNode.Button 0 0 1 1 false false])
    7 7 true {3} {4} rfl

/-! ## C2: hover transitions -/

/-- C2 counterexample: a literal `LayoutKind::Button` node carries no hover
callbacks, so on a frame where the pointer is inside its rectangle and its
index is not in last frame's Hover Set, no just-hovered (and no hover)
callback fires — the traversal emits no event at all. -/
theorem claim2_button_no_hover_ce :
    ((50 : ℚ) ≥ 0 ∧ (50 : ℚ) ≤ 0 + 100 ∧ (20 : ℚ) ≥ 0 ∧ (20 : ℚ) ≤ 0 + 40) ∧
    (0 : ℕ) ∉ (∅ : Finset ℕ) ∧
    (App.fireCallbacks 50 20 false ∅
        (App.LayoutNode.Button 0 0 100 40 true false) ∅ 0).events = [] := by
  refine ⟨by norm_num, by simp, ?_⟩
  simp [App.fireCallbacks]
  norm_num

/-- C2 amended: the claimed per-frame hover protocol holds for Rect nodes,
which are the interactive nodes carrying hover callbacks: when the pointer
is inside the rectangle the index joins the new Hover Set, the hover
callback (when present) fires every frame, and just-hovered fires iff the
index was not in last frame's Hover Set; when outside, just-unhovered fires
iff it was.  A Button node joins the Hover Set but carries no hover
callbacks, so it can fire only click.  The four-frame scenario (hovered on
frames 1–2, unhovered on 3–4: just-hovered once, then hover only, then
just-unhovered once, then nothing) holds for a Rect carrying all four
callbacks. -/
theorem claim2_hover_transitions :
    (∀ (x y w h mx my : ℚ) (cb : App.Callbacks) (clicked : Bool)
      (hl ht : Finset ℕ) (i : ℕ),
      ((mx ≥ x ∧ mx ≤ x + w ∧ my ≥ y ∧ my ≤ y + h) →
        (App.fireCallbacks mx my clicked hl
          (App.LayoutNode.Rect x y w h cb false) ht i).hovered = insert i ht) ∧
      (¬(mx ≥ x ∧ mx ≤ x + w ∧ my ≥ y ∧ my ≤ y + h) →
        (App.fireCallbacks mx my clicked hl
          (App.LayoutNode.Rect x y w h cb false) ht i).hovered = ht) ∧
      (App.Event.hover i ∈ (App.fireCallbacks mx my clicked hl
          (App.LayoutNode.Rect x y w h cb false) ht i).events ↔
        (mx ≥ x ∧ mx ≤ x + w ∧ my ≥ y ∧ my ≤ y + h) ∧ cb.onHover = true) ∧
      (App.Event.justHovered i ∈ (App.fireCallbacks mx my clicked hl
          (App.LayoutNode.Rect x y w h cb false) ht i).events ↔
        (mx ≥ x ∧ mx ≤ x + w ∧ my ≥ y ∧ my ≤ y + h) ∧ i ∉ hl ∧
          cb.onJustHovered = true) ∧
      (App.Event.justUnhovered i ∈ (App.fireCallbacks mx my clicked hl
          (App.LayoutNode.Rect x y w h cb false) ht i).events ↔
        ¬(mx ≥ x ∧ mx ≤ x + w ∧ my ≥ y ∧ my ≤ y + h) ∧ i ∈ hl ∧
          cb.onJustUnhovered = true)) ∧
    (∀ (x y w h mx my : ℚ) (hasClick clicked : Bool) (hl ht : Finset ℕ) (i : ℕ),
      ((mx ≥ x ∧ mx ≤ x + w ∧ my ≥ y ∧ my ≤ y + h) →
        (App.fireCallbacks mx my clicked hl
          (App.LayoutNode.Button x y w h hasClick false) ht i).hovered = insert i ht) ∧
      (∀ e ∈ (App.fireCallbacks mx my clicked hl
          (App.LayoutNode.Button x y w h hasClick false) ht i).events,
        e = App.Event.click i)) ∧
    ((App.fireCallbacks 50 20 false ∅
        (App.LayoutNode.Rect 0 0 100 40 App.cbAll false) ∅ 0).events =
      [App.Event.hover 0, App.Event.justHovered 0] ∧
     (App.fireCallbacks 50 20 false ∅
        (App.LayoutNode.Rect 0 0 100 40 App.cbAll false) ∅ 0).hovered = {0} ∧
     (App.fireCallbacks 50 20 false {0}
        (App.LayoutNode.Rect 0 0 100 40 App.cbAll false) ∅ 0).events =
      [App.Event.hover 0] ∧
     (App.fireCallbacks 50 20 false {0}
        (App.LayoutNode.Rect 0 0 100 40 App.cbAll false) ∅ 0).hovered = {0} ∧
     (App.fireCallbacks 500 500 false {0}
        (App.LayoutNode.Rect 0 0 100 40 App.cbAll false) ∅ 0).events =
      [App.Event.justUnhovered 0] ∧
     (App.fireCallbacks 500 500 false {0}
        (App.LayoutNode.Rect 0 0 100 40 App.cbAll false) ∅ 0).hovered = ∅ ∧
     (App.fireCallbacks 500 500 false ∅
        (App.LayoutNode.Rect 0 0 100 40 App.cbAll false) ∅ 0).events = [] ∧
     (App.fireCallbacks 500 500 false ∅
        (App.LayoutNode.Rect 0 0 100 40 App.cbAll false) ∅ 0).hovered = ∅) := by
  refine ⟨?_, ?_, ?_⟩
  · intro x y w h mx my cb clicked hl ht i
    by_cases hov : mx ≥ x ∧ mx ≤ x + w ∧ my ≥ y ∧ my ≤ y + h
    · by_cases hmem : i ∈ hl <;> cases clicked <;>
        simp [App.fireCallbacks, hov, hmem]
    · by_cases hmem : i ∈ hl <;> cases clicked <;>
        simp [App.fireCallbacks, hov, hmem]
  · intro x y w h mx my hasClick clicked hl ht i
    by_cases hov : mx ≥ x ∧ mx ≤ x + w ∧ my ≥ y ∧ my ≤ y + h
    · cases clicked <;> cases hasClick <;> simp [App.fireCallbacks, hov]
    · cases clicked <;> cases hasClick <;> simp [App.fireCallbacks, hov]
  · have hov1 : (50 : ℚ) ≥ 0 ∧ (50 : ℚ) ≤ 0 + 100 ∧ (20 : ℚ) ≥ 0 ∧ (20 : ℚ) ≤ 0 + 40 := by
      norm_num
    have hov2 : ¬((500 : ℚ) ≥ 0 ∧ (500 : ℚ) ≤ 0 + 100 ∧ (500 : ℚ) ≥ 0 ∧
        (500 : ℚ) ≤ 0 + 40) := by norm_num
    refine ⟨?_, ?_, ?_, ?_, ?_, ?_, ?_, ?_⟩ <;>
      simp [App.fireCallbacks, App.cbAll, hov1, hov2] <;> norm_num

/-- Witness for C2 (amended): just-hovered fires for a hover-carrying Rect
whose index is fresh, by the biconditional of the amended claim. -/
theorem claim2_hover_transitions_witness :
    App.Event.justHovered 5 ∈ (App.fireCallbacks 50 20 false ∅
        (App.LayoutNode.Rect 0 0 100 40 App.cbAll false) ∅ 5).events :=
  (claim2_hover_transitions.1 0 0 100 40 50 20 App.cbAll false ∅ ∅ 5).2.2.2.1.mpr
    (by norm_num [App.cbAll])

/-! ## C1: Row fill distribution -/

/-- A plain non-Fill rect child's laid-out width equals its measured width
(the measure pass adds its zero padding; the layout pass subtracts it from
the budget and applies its absent clamps). -/
theorem App.layout_w_plain_nonfill (mt : String → ℚ × ℚ) (inf : ℚ)
    (c : App.Element) (x y iw ih : ℚ)
    (hp : App.plainW c = true) (hnf : App.isFillW c = false) :
    (App.layout mt inf c x y iw ih).w = (App.measure mt c iw ih).1 := by
  cases c with
  | Rect w h style cb =>
      simp only [App.plainW, Bool.and_eq_true, decide_eq_true_eq] at hp
      obtain ⟨⟨⟨hl', hr'⟩, hmin⟩, hmax⟩ := hp
      simp [App.layout, App.measure, App.LayoutNode.w, App.clamp, hl', hr', hmin, hmax]
  | _ => simp [App.plainW] at hp

/-- A plain Fill rect child's laid-out width equals the width budget it is
handed. -/
theorem App.layout_w_plain_fill (mt : String → ℚ × ℚ) (inf : ℚ)
    (c : App.Element) (x y fw ih : ℚ)
    (hp : App.plainW c = true) (hf : App.isFillW c = true) :
    (App.layout mt inf c x y fw ih).w = fw := by
  cases c with
  | Rect w h style cb =>
      simp only [App.plainW, Bool.and_eq_true, decide_eq_true_eq] at hp
      obtain ⟨⟨⟨hl', hr'⟩, hmin⟩, hmax⟩ := hp
      simp only [App.isFillW, decide_eq_true_eq] at hf
      simp [App.layout, App.LayoutNode.w, App.clamp, App.resolve, hl', hr', hmin, hmax, hf]
  | _ => simp [App.plainW] at hp

/-- The Row second pass on plain rect children: widths are the Fill share
or the measured width, and the cursor advances by the widths plus one gap
per child. -/
theorem App.rowChildren_spec (mt : String → ℚ × ℚ) (inf : ℚ)
    (yTop iw ih gap fw : ℚ) :
    ∀ (cs : List App.Element) (cx : ℚ), (∀ c ∈ cs, App.plainW c = true) →
      ((App.rowChildren mt inf cs cx yTop iw ih gap fw).1.map App.LayoutNode.w =
        cs.map fun c => if App.isFillW c then fw else (App.measure mt c iw ih).1) ∧
      (App.rowChildren mt inf cs cx yTop iw ih gap fw).2.1 =
        cx + ((cs.map fun c =>
          if App.isFillW c then fw else (App.measure mt c iw ih).1).sum +
          gap * cs.length)
  | [], cx, _ => by simp [App.rowChildren]
  | c :: rest, cx, hplain => by
      have hc := hplain c (List.mem_cons_self c rest)
      have hrest : ∀ c' ∈ rest, App.plainW c' = true :=
        fun c' hc' => hplain c' (List.mem_cons_of_mem c hc')
      have hw : (App.layout mt inf c cx yTop (if App.isFillW c then fw else iw) ih).w =
          (if App.isFillW c then fw else (App.measure mt c iw ih).1) := by
        cases hf : App.isFillW c with
        | true => simpa [hf] using App.layout_w_plain_fill mt inf c cx yTop fw ih hc hf
        | false => simpa [hf] using App.layout_w_plain_nonfill mt inf c cx yTop iw ih hc hf
      have ih2 := App.rowChildren_spec mt inf yTop iw ih gap fw rest
        (cx + (App.layout mt inf c cx yTop (if App.isFillW c then fw else iw) ih).w + gap)
        hrest
      unfold App.rowChildren
      dsimp only
      refine ⟨?_, ?_⟩
      · rw [List.map_cons, List.map_cons, ih2.1, hw]
      · rw [ih2.2, hw, List.map_cons, List.sum_cons, List.length_cons]
        push_cast
        ring

/-- The Row first pass computes the non-Fill measured-width total and the
Fill count. -/
theorem App.rowFixedFill_spec (mt : String → ℚ × ℚ) (iw ih : ℚ) :
    ∀ cs : List App.Element,
      (App.rowFixedFill mt cs iw ih).1 = App.nonFillMeasuredSum mt cs iw ih ∧
      (App.rowFixedFill mt cs iw ih).2 = App.fillCount cs
  | [] => by simp [App.rowFixedFill, App.nonFillMeasuredSum, App.fillCount]
  | c :: rest => by
      have ih2 := App.rowFixedFill_spec mt iw ih rest
      cases hf : App.isFillW c with
      | true =>
          simp [App.rowFixedFill, App.nonFillMeasuredSum, App.fillCount, hf,
            ih2.1, ih2.2, App.nonFillMeasuredSum, App.fillCount]
      | false =>
          simp [App.rowFixedFill, App.nonFillMeasuredSum, App.fillCount, hf,
            ih2.1, ih2.2, App.nonFillMeasuredSum, App.fillCount]

/-- Splitting the per-child width sum into the Fill and non-Fill parts. -/
theorem App.sum_if_fill_split (fw : ℚ) (m : App.Element → ℚ) :
    ∀ cs : List App.Element,
      (cs.map fun c => if App.isFillW c then fw else m c).sum =
        fw * (App.fillCount cs : ℚ) + ((cs.filter fun c => !App.isFillW c).map m).sum
  | [] => by simp [App.fillCount]
  | c :: rest => by
      have ih2 := App.sum_if_fill_split fw m rest
      cases hf : App.isFillW c with
      | true =>
          simp [App.fillCount, List.filter_cons, hf, ih2]
          ring
      | false =>
          simp [App.fillCount, List.filter_cons, hf, ih2]
          ring

/-- Mapping widths through the cross-axis y-shift changes nothing. -/
theorem App.map_w_map_addY (ns : List App.LayoutNode) (g : App.LayoutNode → ℚ) :
    ((ns.map fun nd => App.LayoutNode.addY nd (g nd)).map App.LayoutNode.w) =
      ns.map App.LayoutNode.w := by
  rw [List.map_map]
  exact List.map_congr_left fun nd _ => App.LayoutNode.addY_w nd (g nd)


/-- C1 amended: for a Row with inner width `W`, gap `g`, `n` children that
are plain rects (zero horizontal padding, no width clamps) of which
`k > 0` have width Fill and the others measure to total `F`, each Fill
child is laid out with exactly `max(0, W - g*(n-1) - F) / k` as its width,
each non-Fill child with its measured width, and when
`W - g*(n-1) - F ≥ 0` the children's widths plus the `n-1` gaps sum
exactly to `W`.  (With child padding or clamps the Fill child's width is
reduced by them — see the counterexample.) -/
theorem claim1_row_fill_distribution (mt : String → ℚ × ℚ) (inf gap : ℚ)
    (style : App.Style) (children : List App.Element) (x y aw ah : ℚ)
    (hplain : ∀ c ∈ children, App.plainW c = true)
    (hfill : 0 < App.fillCount children) :
    ((App.layout mt inf (App.Element.Row gap style children) x y aw ah).childNodes.map
        App.LayoutNode.w =
      children.map fun c =>
        if App.isFillW c then
          App.rowFillShare (App.rowInnerW style aw) gap
            (App.nonFillMeasuredSum mt children (App.rowInnerW style aw)
              (App.rowInnerH style ah)) children.length (App.fillCount children)
        else (App.measure mt c (App.rowInnerW style aw) (App.rowInnerH style ah)).1) ∧
    (0 ≤ App.rowInnerW style aw - gap * ((children.length : ℚ) - 1) -
        App.nonFillMeasuredSum mt children (App.rowInnerW style aw) (App.rowInnerH style ah) →
      (((App.layout mt inf (App.Element.Row gap style children) x y aw ah).childNodes.map
          App.LayoutNode.w).sum + gap * ((children.length : ℚ) - 1) =
        App.rowInnerW style aw)) := by
  have hnpos : 0 < children.length := lt_of_lt_of_le hfill (List.length_filter_le _ _)
  have hff := App.rowFixedFill_spec mt (App.rowInnerW style aw) (App.rowInnerH style ah) children
  have hfweq : (if 0 < (App.rowFixedFill mt children (App.rowInnerW style aw)
        (App.rowInnerH style ah)).2 then
      max ((App.rowInnerW style aw) -
          ((if 0 < children.length then gap * ((children.length : ℚ) - 1) else 0) +
            (App.rowFixedFill mt children (App.rowInnerW style aw) (App.rowInnerH style ah)).1))
        0 / ((App.rowFixedFill mt children (App.rowInnerW style aw)
          (App.rowInnerH style ah)).2 : ℚ)
      else 0) =
      App.rowFillShare (App.rowInnerW style aw) gap
        (App.nonFillMeasuredSum mt children (App.rowInnerW style aw) (App.rowInnerH style ah))
        children.length (App.fillCount children) := by
    rw [hff.1, hff.2, if_pos hnpos, if_pos hfill, App.rowFillShare, sub_add_eq_sub_sub]
  have hrc := App.rowChildren_spec mt inf (y + style.padding.top) (App.rowInnerW style aw)
    (App.rowInnerH style ah) gap
    (App.rowFillShare (App.rowInnerW style aw) gap
      (App.nonFillMeasuredSum mt children (App.rowInnerW style aw) (App.rowInnerH style ah))
      children.length (App.fillCount children))
    children (x + style.padding.left) hplain
  have hmap : (App.layout mt inf (App.Element.Row gap style children) x y aw ah).childNodes.map
      App.LayoutNode.w =
      children.map fun c =>
        if App.isFillW c then
          App.rowFillShare (App.rowInnerW style aw) gap
            (App.nonFillMeasuredSum mt children (App.rowInnerW style aw)
              (App.rowInnerH style ah)) children.length (App.fillCount children)
        else (App.measure mt c (App.rowInnerW style aw) (App.rowInnerH style ah)).1 := by
    rw [← hrc.1]
    simp only [App.layout]
    rw [show App.resolve style.width aw aw - style.padding.left - style.padding.right =
      App.rowInnerW style aw from rfl]
    rw [show App.resolve style.height ah ah - style.padding.top - style.padding.bottom =
      App.rowInnerH style ah from rfl]
    rw [hfweq]
    simp only [App.LayoutNode.childNodes]
    by_cases halign : style.alignY = App.Align.Start
    · simp [halign]
    · simp only [ne_eq, halign, not_false_iff, if_true]
      exact App.map_w_map_addY _ _
  refine ⟨hmap, ?_⟩
  intro hpos
  rw [hmap, App.sum_if_fill_split]
  have hkne : ((App.fillCount children : ℚ)) ≠ 0 := by
    have := hfill.ne'
    exact_mod_cast this
  rw [show App.rowFillShare (App.rowInnerW style aw) gap
      (App.nonFillMeasuredSum mt children (App.rowInnerW style aw) (App.rowInnerH style ah))
      children.length (App.fillCount children) =
    ((App.rowInnerW style aw) - gap * ((children.length : ℚ) - 1) -
      App.nonFillMeasuredSum mt children (App.rowInnerW style aw) (App.rowInnerH style ah)) /
      (App.fillCount children : ℚ) from by
    rw [App.rowFillShare, max_eq_left hpos]]
  rw [div_mul_cancel₀ _ hkne]
  rw [show ((children.filter fun c => !App.isFillW c).map fun c =>
      (App.measure mt c (App.rowInnerW style aw) (App.rowInnerH style ah)).1).sum =
    App.nonFillMeasuredSum mt children (App.rowInnerW style aw) (App.rowInnerH style ah)
    from rfl]
  ring



/-- Witness for C1 (amended): a Row of inner width 200 and gap 0 with a
Fixed(50) rect and one Fill rect lays them out at widths 50 and 150,
summing (with zero gaps) to the inner width. -/
theorem claim1_row_fill_distribution_witness :
    ((App.layout App.mt0 0 (App.Element.Row 0 (App.styleW (App.Size.Fixed 200))
        [App.Element.Rect 50 20 App.styleDefault App.cb0,
         App.Element.Rect 0 0 (App.styleW App.Size.Fill) App.cb0]) 0 0 300 300).childNodes.map
      App.LayoutNode.w) = [50, 150] := by
  have h := claim1_row_fill_distribution App.mt0 0 0 (App.styleW (App.Size.Fixed 200))
      [App.Element.Rect 50 20 App.styleDefault App.cb0,
       App.Element.Rect 0 0 (App.styleW App.Size.Fill) App.cb0] 0 0 300 300
      (by intro c hc; fin_cases hc <;> rfl) (by decide)
  have hf1 : App.isFillW (App.Element.Rect 50 20 App.styleDefault App.cb0) = false := by decide
  have hf2 : App.isFillW (App.Element.Rect 0 0 (App.styleW App.Size.Fill) App.cb0) = true := by
    decide
  rw [h.1]
  simp only [List.map_cons, List.map_nil, hf1, hf2, Bool.false_eq_true, if_false, if_true,
    List.cons.injEq, and_true]
  refine ⟨?_, ?_⟩
  · norm_num [App.measure, App.resolve, App.clamp, App.styleDefault]
  · norm_num [App.rowFillShare, App.rowInnerW, App.rowInnerH, App.nonFillMeasuredSum,
      App.fillCount, List.filter_cons, App.isFillW, App.measure, App.resolve, App.clamp,
      App.styleDefault, App.styleW]
    norm_num [show (none = some App.Size.Fill) = False from by simp]
    norm_num [App.measure, App.resolve, App.clamp]

/-- C1 counterexample: a Row of inner width `W = 200`, gap 0, with a single
Fill child that carries horizontal padding 10/10 (`n = k = 1`, `F = 0`).
The claim gives the Fill child exactly `max(0, 200)/1 = 200` and a total
consumed width of 200, but the layout pass resolves the Fill against the
budget minus the child's own padding: the child's width is 180 and the
total consumed width is 180 ≠ 200. -/
theorem claim1_row_fill_ce :
    ((App.layout App.mt0 0 (App.Element.Row 0 (App.styleW (App.Size.Fixed 200))
        [App.Element.Rect 0 0 (App.styleWPadH App.Size.Fill 10 10) App.cb0])
        0 0 300 300).childNodes.map App.LayoutNode.w) = [180] ∧
    App.rowInnerW (App.styleW (App.Size.Fixed 200)) 300 = 200 ∧
    App.rowFillShare 200 0 0 1 1 = 200 ∧
    ((180 : ℚ) ≠ 200) ∧
    ((180 : ℚ) + 0 * ((1 : ℚ) - 1) ≠ 200) := by
  refine ⟨?_, ?_, ?_, by norm_num, by norm_num⟩
  · norm_num [App.layout, App.rowChildren, App.rowFixedFill, App.resolve, App.clamp,
      App.isFillW, App.measure, App.LayoutNode.w, App.LayoutNode.childNodes, App.styleW,
      App.styleWPadH, App.styleDefault, App.cb0, App.mt0]
  · norm_num [App.rowInnerW, App.resolve, App.styleW, App.styleDefault]
  · norm_num [App.rowFillShare]



/-! ## C4: Percent resolves against the parent inner extent -/

/-- C4 counterexample: a Percent(50) rect child with horizontal padding
10/10 inside a Row of inner width 200 resolves to `(200 - 20) * 50% = 90`,
not to 50% of the parent's inner extent (100) — the layout pass subtracts
the child's own padding from the base before applying the percentage. -/
theorem claim4_percent_padding_ce :
    ((App.layout App.mt0 0 (App.Element.Row 0 (App.styleW (App.Size.Fixed 200))
        [App.Element.Rect 7 7 (App.styleWPadH (App.Size.Percent 50) 10 10) App.cb0])
        0 0 300 300).childNodes.map App.LayoutNode.w) = [90] ∧
    App.rowInnerW (App.styleW (App.Size.Fixed 200)) 300 = 200 ∧
    ((90 : ℚ) ≠ 50 / 100 * 200) := by
  refine ⟨?_, ?_, by norm_num⟩
  · norm_num [App.layout, App.rowChildren, App.rowFixedFill, App.resolve, App.clamp,
      App.isFillW, App.measure, App.LayoutNode.w, App.LayoutNode.childNodes, App.styleW,
      App.styleWPadH, App.styleDefault, App.cb0, App.mt0]
    norm_num [show (App.Size.Percent 50 = App.Size.Fill) = False from by simp]
  · norm_num [App.rowInnerW, App.resolve, App.styleW, App.styleDefault]

/-- C4 amended: a Percent(p) rect child is resolved to `p` percent of the
width budget it is handed minus its own horizontal padding, clamped; for a
zero-padding unclamped child that budget is exactly the parent's inner
available extent — so a Percent(50) child in a container of inner width 200
resolves to 100 whether the container's declared width is Fixed(200) (for
any window size) or Fill at 200, never against the root window. -/
theorem claim4_percent_inner (mt : String → ℚ × ℚ) (inf : ℚ) :
    (∀ (p w h x y aw ah : ℚ) (style : App.Style) (cb : App.Callbacks),
      style.width = some (App.Size.Percent p) →
      (App.layout mt inf (App.Element.Rect w h style cb) x y aw ah).w =
        App.clamp ((aw - style.padding.left - style.padding.right) * p / 100)
          style.minWidth style.maxWidth) ∧
    (∀ (x y aw ah : ℚ),
      ((App.layout mt inf (App.Element.Row 0 (App.styleW (App.Size.Fixed 200))
          [App.Element.Rect 7 7 (App.styleW (App.Size.Percent 50)) App.cb0])
          x y aw ah).childNodes.map App.LayoutNode.w) = [100]) ∧
    (∀ (x y ah : ℚ),
      ((App.layout mt inf (App.Element.Row 0 (App.styleW App.Size.Fill)
          [App.Element.Rect 7 7 (App.styleW (App.Size.Percent 50)) App.cb0])
          x y 200 ah).childNodes.map App.LayoutNode.w) = [100]) := by
  refine ⟨?_, ?_, ?_⟩
  · intro p w h x y aw ah style cb hw
    simp [App.layout, App.LayoutNode.w, App.resolve, hw]
  · intro x y aw ah
    norm_num [App.layout, App.rowChildren, App.rowFixedFill, App.resolve, App.clamp,
      App.isFillW, App.measure, App.LayoutNode.w, App.LayoutNode.childNodes, App.styleW,
      App.styleDefault, App.cb0]
    norm_num [show (App.Size.Percent 50 = App.Size.Fill) = False from by simp]
  · intro x y ah
    norm_num [App.layout, App.rowChildren, App.rowFixedFill, App.resolve, App.clamp,
      App.isFillW, App.measure, App.LayoutNode.w, App.LayoutNode.childNodes, App.styleW,
      App.styleDefault, App.cb0]
    norm_num [show (App.Size.Percent 50 = App.Size.Fill) = False from by simp]

/-- Witness for C4 (amended): a padded Percent(50) rect handed a budget of
220 resolves to `(220 - 20) * 50% = 100`. -/
theorem claim4_percent_inner_witness :
    (App.layout App.mt0 0 (App.Element.Rect 7 7 (App.styleWPadH (App.Size.Percent 50) 10 10)
        App.cb0) 0 0 220 100).w = 100 := by
  have h := (claim4_percent_inner App.mt0 0).1 50 7 7 0 0 220 100
      (App.styleWPadH (App.Size.Percent 50) 10 10) App.cb0 rfl
  rw [h]
  norm_num [App.clamp, App.styleWPadH, App.styleDefault]


end Maleo
